import Mathlib

/-!
# Verification of the api-manager gateway core

A shallow embedding, in Lean 4, of the core of the `api-manager` LLM-API
aggregation gateway (Rust, sqlx/axum/tokio), together with theorems checking
its natural-language specification.

Conventions of the embedding:
* Rust machine integers are modelled as `Nat`/`Int`; `u32` arithmetic that can
  overflow is taken modulo `2^32` (release-mode wrapping).
* `f64` credit balances are modelled as `Rat`.  The source only compares,
  stores and reformats balances (no float arithmetic), so all comparisons
  coincide with the rational ones on the exactly-representable inputs used.
* `HashMap` fields are modelled as functions `String → Option _`.
* `DateTime<Utc>` timestamps are opaque `Nat` values passed in as parameters.
* The tokio counting semaphore of a provider is modelled as a capacity plus a
  count of permits currently acquired.
* I/O (sqlite, reqwest) is modelled by explicit state passing (the provider
  table as a `List DbRow`) and by per-key upstream-outcome oracles.
-/

/-! ## Generic list helpers -/

/-- First element of `l` minimising `f` (the behaviour of Rust's
`Iterator::min_by_key`, which returns the first of several equal minima). -/
def minByKey {α : Type} (f : α → Nat) : List α → Option α
  | [] => none
  | x :: xs =>
    match minByKey f xs with
    | none => some x
    | some y => if f x ≤ f y then some x else some y

theorem minByKey_cons_ne_none {α : Type} (f : α → Nat) (x : α) (xs : List α) :
    minByKey f (x :: xs) ≠ none := by
  simp only [minByKey]
  rcases hx : minByKey f xs with _ | y
  · simp
  · by_cases hle : f x ≤ f y <;> simp [hle]

theorem minByKey_mem {α : Type} (f : α → Nat) (l : List α) (m : α)
    (h : minByKey f l = some m) : m ∈ l := by
  induction l generalizing m with
  | nil => simp [minByKey] at h
  | cons x xs ih =>
    simp only [minByKey] at h
    rcases hx : minByKey f xs with _ | y <;> rw [hx] at h
    · simp at h
      subst h
      exact List.mem_cons_self x xs
    · by_cases hle : f x ≤ f y
      · simp only [hle, if_true] at h
        simp at h
        subst h
        exact List.mem_cons_self x xs
      · simp only [hle, if_false] at h
        simp at h
        subst h
        exact List.mem_cons_of_mem x (ih y hx)

theorem minByKey_min {α : Type} (f : α → Nat) (l : List α) (m : α)
    (h : minByKey f l = some m) : ∀ y ∈ l, f m ≤ f y := by
  induction l generalizing m with
  | nil => simp [minByKey] at h
  | cons x xs ih =>
    simp only [minByKey] at h
    rcases hx : minByKey f xs with _ | y <;> rw [hx] at h
    · simp at h
      subst h
      intro z hz
      have hxs : xs = [] := by
        cases xs with
        | nil => rfl
        | cons a as => exact absurd hx (minByKey_cons_ne_none f a as)
      subst hxs
      simp at hz
      subst hz
      exact le_refl _
    · by_cases hle : f x ≤ f y
      · simp only [hle, if_true] at h
        simp at h
        subst h
        intro z hz
        rcases List.mem_cons.mp hz with h1 | h2
        · subst h1
          exact le_refl _
        · exact le_trans hle (ih y hx z h2)
      · simp only [hle, if_false] at h
        simp at h
        subst h
        intro z hz
        rcases List.mem_cons.mp hz with h1 | h2
        · subst h1
          exact le_of_not_le hle
        · exact ih y hx z h2

/-- `minByKey` returns the *first* minimum: everything strictly before the
returned element has a strictly larger key. -/
theorem minByKey_first {α : Type} (f : α → Nat) (l : List α) (m : α)
    (h : minByKey f l = some m) :
    ∃ l1 l2, l = l1 ++ m :: l2 ∧ ∀ y ∈ l1, f m < f y := by
  induction l generalizing m with
  | nil => simp [minByKey] at h
  | cons x xs ih =>
    simp only [minByKey] at h
    rcases hx : minByKey f xs with _ | y <;> rw [hx] at h
    · simp at h
      subst h
      exact ⟨[], xs, rfl, by simp⟩
    · by_cases hle : f x ≤ f y
      · simp only [hle, if_true] at h
        simp at h
        subst h
        exact ⟨[], xs, rfl, by simp⟩
      · simp only [hle, if_false] at h
        simp at h
        subst h
        obtain ⟨l1, l2, heq, hlt⟩ := ih y hx
        refine ⟨x :: l1, l2, by rw [heq]; rfl, ?_⟩
        intro z hz
        rcases List.mem_cons.mp hz with h1 | h2
        · subst h1
          exact lt_of_not_le hle
        · exact hlt z h2

/-! ## Provider pool (src/services/provider_pool.rs)

`TokenUsage`, `ProviderInfo` and `ProviderPoolState` are direct translations
of the structs of `provider_pool.rs`.  `u32` counters are `Nat` taken modulo
`2^32` on update; the `i32` configuration fields are `Int`.
-/

/-- `2^32`, the modulus of Rust `u32` arithmetic. -/
def W32 : Nat := 4294967296

/-- `TokenUsage` from `provider_pool.rs`. -/
structure TokenUsage where
  last_used : Nat
  total_tokens : Nat
  request_count : Nat
deriving DecidableEq, Repr

/-- `ProviderInfo` from `provider_pool.rs`. -/
structure ProviderInfo where
  base_url : String
  api_key : String
  max_connections : Int
  min_connections : Int
  acquire_timeout_ms : Int
  idle_timeout_ms : Int
  load_balance_strategy : String
  retry_attempts : Int
  balance : Rat
  last_balance_check : Option Nat
  min_balance_threshold : Rat
  support_balance_check : Bool
  model_name : String
  model_type : String
  model_version : String
deriving DecidableEq, Repr

/-- State of one per-key tokio counting semaphore: its total number of permits
and the number currently acquired. -/
structure SemState where
  capacity : Nat
  acquired : Nat
deriving DecidableEq, Repr

/-- The map of per-key semaphores (`HashMap<String, Arc<Semaphore>>`). -/
def SemMap : Type := String → Option SemState

/-- `ProviderPoolState` from `provider_pool.rs`. -/
structure ProviderPoolState where
  providers : List ProviderInfo
  current_index : Nat
  token_usage : String → Option TokenUsage
  connection_semaphores : SemMap

/-- One step of the semaphore-building loop of `ProviderPoolState::new`:
insert a fresh semaphore with `max_connections` permits under the provider's
`api_key` (a later duplicate key overwrites an earlier one, as
`HashMap::insert` does). -/
def semStep (m : SemMap) (p : ProviderInfo) : SemMap :=
  fun k => if k = p.api_key then some ⟨p.max_connections.toNat, 0⟩ else m k

/-- The semaphore map built by `ProviderPoolState::new`. -/
def initSemaphores (providers : List ProviderInfo) : SemMap :=
  providers.foldl semStep (fun _ => none)

/-- `ProviderPoolState::new`. -/
def ProviderPoolState.new (providers : List ProviderInfo) : ProviderPoolState :=
  { providers := providers
    current_index := 0
    token_usage := fun _ => none
    connection_semaphores := initSemaphores providers }

/-- `ProviderPoolState::get_semaphore`. -/
def ProviderPoolState.get_semaphore (s : ProviderPoolState) (api_key : String) :
    Option SemState :=
  s.connection_semaphores api_key

/-- `ProviderPoolState::is_provider_available` (the `&self` receiver is unused
in the source): available iff balance checking is disabled or
`balance >= min_balance_threshold`. -/
def is_provider_available (p : ProviderInfo) : Bool :=
  if p.support_balance_check then decide (p.min_balance_threshold ≤ p.balance) else true

/-- The filtered list of available providers supporting the requested model
(built inside `select_provider`). -/
def availableFilter (s : ProviderPoolState) (model_name : String) : List ProviderInfo :=
  s.providers.filter (fun p => is_provider_available p && (p.model_name == model_name))

/-- `ProviderPoolState::select_provider` (`Vec::is_empty` is rendered as
equality with `[]`). -/
def ProviderPoolState.select_provider (s : ProviderPoolState)
    (model_name strategy : String) : Option ProviderInfo :=
  if s.providers = [] then none
  else if availableFilter s model_name = [] then none
  else
    match strategy with
    | "RoundRobin" =>
        (availableFilter s model_name)[s.current_index % (availableFilter s model_name).length]?
    | "LeastConnections" =>
        minByKey (fun p => ((s.token_usage p.api_key).map TokenUsage.request_count).getD 0)
          (availableFilter s model_name)
    | "LeastTokens" =>
        minByKey (fun p => ((s.token_usage p.api_key).map TokenUsage.total_tokens).getD 0)
          (availableFilter s model_name)
    | _ => (availableFilter s model_name).head?

/-- `ProviderPoolState::update_index`: advance the round-robin cursor by one,
modulo the length of the *global* provider list. -/
def ProviderPoolState.update_index (s : ProviderPoolState) : ProviderPoolState :=
  { s with current_index := (s.current_index + 1) % s.providers.length }

/-- `ProviderPoolState::update_usage` (both `Utc::now()` calls of the source
are the single instant `now`; the `u32` counters wrap modulo `2^32`). -/
def ProviderPoolState.update_usage (s : ProviderPoolState) (api_key : String)
    (tokens : Nat) (now : Nat) : ProviderPoolState :=
  let usage := (s.token_usage api_key).getD ⟨now, 0, 0⟩
  let usage2 : TokenUsage :=
    { last_used := now
      total_tokens := (usage.total_tokens + tokens) % W32
      request_count := (usage.request_count + 1) % W32 }
  { s with token_usage := fun k => if k = api_key then some usage2 else s.token_usage k }

/-- The selection half of `TokenManager::new`: select a provider under the
strategy and, when the strategy is `RoundRobin` and selection succeeded,
advance the cursor. -/
def tokenManagerSelect (s : ProviderPoolState) (model_name strategy : String) :
    Option ProviderInfo × ProviderPoolState :=
  match s.select_provider model_name strategy with
  | some p => (some p, if strategy == "RoundRobin" then s.update_index else s)
  | none => (none, s)

/-- Observable api-key sequence of `n` successive `TokenManager::new`
selections threading the pool state. -/
def selectSeq (s : ProviderPoolState) (model_name strategy : String) : Nat → List (Option String)
  | 0 => []
  | n + 1 =>
    let r := tokenManagerSelect s model_name strategy
    (r.1.map ProviderInfo.api_key) :: selectSeq r.2 model_name strategy n

/-! ## Tally observers -/

/-- The `total_tokens` tally recorded for a key (`0` if absent). -/
def tallyTotal (s : ProviderPoolState) (api_key : String) : Nat :=
  ((s.token_usage api_key).map TokenUsage.total_tokens).getD 0

/-- The `request_count` tally recorded for a key (`0` if absent). -/
def tallyCount (s : ProviderPoolState) (api_key : String) : Nat :=
  ((s.token_usage api_key).map TokenUsage.request_count).getD 0

/-- The `last_used` instant recorded for a key. -/
def tallyLast (s : ProviderPoolState) (api_key : String) : Option Nat :=
  (s.token_usage api_key).map TokenUsage.last_used

/-! ## Concrete test pools -/

/-- A provider record with balance checking disabled, serving model `"M"`
(the shape `initialize_provider_pool` produces for a row with
`support_balance_check = 0`). -/
def provA : ProviderInfo :=
  { base_url := "https://a.example/v1/chat/completions"
    api_key := "A"
    max_connections := 10
    min_connections := 1
    acquire_timeout_ms := 3000
    idle_timeout_ms := 60000
    load_balance_strategy := "RoundRobin"
    retry_attempts := 3
    balance := 0
    last_balance_check := none
    min_balance_threshold := 0
    support_balance_check := false
    model_name := "M"
    model_type := "ChatCompletion"
    model_version := "v3" }

def provB : ProviderInfo :=
  { provA with base_url := "https://b.example/v1/chat/completions", api_key := "B" }

def provC : ProviderInfo :=
  { provA with base_url := "https://c.example/v1/chat/completions", api_key := "C" }

/-- Pool of three available providers A, B, C for model `"M"`. -/
def poolABC : ProviderPoolState := ProviderPoolState.new [provA, provB, provC]

/-- `poolABC` with pre-seeded usage tallies: A has 100 total tokens, B 50,
C 200 (one request each). -/
def poolTallies : ProviderPoolState :=
  { providers := [provA, provB, provC]
    current_index := 0
    token_usage := fun k =>
      if k = "A" then some ⟨0, 100, 1⟩
      else if k = "B" then some ⟨0, 50, 1⟩
      else if k = "C" then some ⟨0, 200, 1⟩
      else none
    connection_semaphores := initSemaphores [provA, provB, provC] }

/-! ## C9: the usage tally is additive -/

theorem update_usage_self (s : ProviderPoolState) (k : String) (tokens now : Nat) :
    (s.update_usage k tokens now).token_usage k =
      some ⟨now, (tallyTotal s k + tokens) % W32, (tallyCount s k + 1) % W32⟩ := by
  simp only [ProviderPoolState.update_usage, tallyTotal, tallyCount]
  rcases s.token_usage k with _ | u <;> simp

/-- C9: for every key `k` and token counts `n` and `m`,
`UpdateUsage(k, n); UpdateUsage(k, m)` produces the same `total_tokens` tally
for `k` as the single `UpdateUsage(k, n + m)`, and the same tally as the two
calls in the opposite order; `request_count` increments by one per call and
`last_used` takes the time of the latest call. -/
theorem c9_update_usage_additive (s : ProviderPoolState) (k : String)
    (n m t1 t2 t3 : Nat) :
    tallyTotal ((s.update_usage k n t1).update_usage k m t2) k
      = tallyTotal (s.update_usage k (n + m) t3) k ∧
    tallyTotal ((s.update_usage k n t1).update_usage k m t2) k
      = tallyTotal ((s.update_usage k m t1).update_usage k n t2) k ∧
    tallyCount (s.update_usage k n t1) k = (tallyCount s k + 1) % W32 ∧
    tallyCount ((s.update_usage k n t1).update_usage k m t2) k
      = (tallyCount (s.update_usage k n t1) k + 1) % W32 ∧
    tallyLast ((s.update_usage k n t1).update_usage k m t2) k = some t2 := by
  have h1 := update_usage_self s k n t1
  have h2 := update_usage_self (s.update_usage k n t1) k m t2
  have h3 := update_usage_self s k (n + m) t3
  have h1m := update_usage_self s k m t1
  have h2m := update_usage_self (s.update_usage k m t1) k n t2
  refine ⟨?_, ?_, ?_, ?_, ?_⟩
  · simp only [tallyTotal, tallyCount, h1, h2, h3, Option.map_some', Option.getD_some, W32]
    omega
  · simp only [tallyTotal, tallyCount, h1, h2, h1m, h2m, Option.map_some', Option.getD_some,
      W32]
    omega
  · simp only [tallyCount, h1, Option.map_some', Option.getD_some]
  · simp only [tallyCount, h1, h2, Option.map_some', Option.getD_some]
  · simp only [tallyLast, h2, Option.map_some']

/-! ## C5: round-robin selection -/

/-- C5: under `RoundRobin`, selection picks the element at index
`cursor mod len(available)` of the availability-and-model filtered list, and
`TokenManager::new` then advances the cursor by one modulo the length of the
global (unfiltered) provider list; consequently, on a pool of three available
providers A, B, C for the requested model, five successive selections yield
A, B, C, A, B. -/
theorem c5_round_robin (s : ProviderPoolState) (model : String)
    (hne : availableFilter s model ≠ []) :
    ((tokenManagerSelect s model "RoundRobin").1
        = (availableFilter s model)[s.current_index % (availableFilter s model).length]?) ∧
    ((tokenManagerSelect s model "RoundRobin").2.current_index
        = (s.current_index + 1) % s.providers.length) ∧
    selectSeq poolABC "M" "RoundRobin" 5
      = [some "A", some "B", some "C", some "A", some "B"] := by
  have hprov : s.providers ≠ [] := fun h0 => hne (by simp [availableFilter, h0])
  have hlen : 0 < (availableFilter s model).length := List.length_pos.mpr hne
  have hidx : s.current_index % (availableFilter s model).length
      < (availableFilter s model).length := Nat.mod_lt _ hlen
  have hsel : s.select_provider model "RoundRobin"
      = (availableFilter s model)[s.current_index % (availableFilter s model).length]? := by
    unfold ProviderPoolState.select_provider
    rw [if_neg hprov, if_neg hne]
    rfl
  rcases hget : (availableFilter s model)[s.current_index % (availableFilter s model).length]?
    with _ | p
  · rw [List.getElem?_eq_none_iff] at hget
    omega
  · refine ⟨?_, ?_, by decide⟩
    · simp [tokenManagerSelect, hsel, hget]
    · simp [tokenManagerSelect, hsel, hget, ProviderPoolState.update_index]

theorem c5_round_robin_witness :
    availableFilter poolABC "M" ≠ [] ∧
    (tokenManagerSelect poolABC "M" "RoundRobin").1
      = (availableFilter poolABC "M")[poolABC.current_index % (availableFilter poolABC "M").length]? :=
  ⟨by decide, (c5_round_robin poolABC "M" (by decide)).1⟩

/-! ## C8: least-connections / least-tokens selection -/

theorem minByKey_spec {α : Type} (f : α → Nat) (l : List α) (hne : l ≠ []) :
    ∃ p, minByKey f l = some p ∧ p ∈ l ∧ (∀ q ∈ l, f p ≤ f q) ∧
      ∃ l1 l2, l = l1 ++ p :: l2 ∧ ∀ q ∈ l1, f p < f q := by
  rcases l with _ | ⟨a, as⟩
  · exact absurd rfl hne
  · rcases hmin : minByKey f (a :: as) with _ | p
    · exact absurd hmin (minByKey_cons_ne_none f a as)
    · exact ⟨p, rfl, minByKey_mem f _ p hmin, minByKey_min f _ p hmin,
        minByKey_first f _ p hmin⟩

/-- C8: under `LeastConnections`, selection returns the available matching
provider minimising its tally's `request_count` (`0` when no tally exists for
the key), and under `LeastTokens` the one minimising `total_tokens`, ties
broken in favour of the provider occurring earlier in the list; concretely,
with token tallies A = 100, B = 50, C = 200, `LeastTokens` picks B, and after
B's tally grows by 40 to 90 it still picks B. -/
theorem c8_least_strategies (s : ProviderPoolState) (model : String)
    (hne : availableFilter s model ≠ []) :
    (∃ p, s.select_provider model "LeastConnections" = some p ∧
        p ∈ availableFilter s model ∧
        (∀ q ∈ availableFilter s model, tallyCount s p.api_key ≤ tallyCount s q.api_key) ∧
        ∃ l1 l2, availableFilter s model = l1 ++ p :: l2 ∧
          ∀ q ∈ l1, tallyCount s p.api_key < tallyCount s q.api_key) ∧
    (∃ p, s.select_provider model "LeastTokens" = some p ∧
        p ∈ availableFilter s model ∧
        (∀ q ∈ availableFilter s model, tallyTotal s p.api_key ≤ tallyTotal s q.api_key) ∧
        ∃ l1 l2, availableFilter s model = l1 ++ p :: l2 ∧
          ∀ q ∈ l1, tallyTotal s p.api_key < tallyTotal s q.api_key) ∧
    poolTallies.select_provider "M" "LeastTokens" = some provB ∧
    (poolTallies.update_usage "B" 40 7).select_provider "M" "LeastTokens" = some provB := by
  have hprov : s.providers ≠ [] := fun h0 => hne (by simp [availableFilter, h0])
  refine ⟨?_, ?_, by decide, by decide⟩
  · have hsel : s.select_provider model "LeastConnections"
        = minByKey (fun p => ((s.token_usage p.api_key).map TokenUsage.request_count).getD 0)
            (availableFilter s model) := by
      unfold ProviderPoolState.select_provider
      rw [if_neg hprov, if_neg hne]
      rfl
    rw [hsel]
    exact minByKey_spec _ _ hne
  · have hsel : s.select_provider model "LeastTokens"
        = minByKey (fun p => ((s.token_usage p.api_key).map TokenUsage.total_tokens).getD 0)
            (availableFilter s model) := by
      unfold ProviderPoolState.select_provider
      rw [if_neg hprov, if_neg hne]
      rfl
    rw [hsel]
    exact minByKey_spec _ _ hne

theorem c8_least_strategies_witness :
    availableFilter poolTallies "M" ≠ [] ∧
    poolTallies.select_provider "M" "LeastTokens" = some provB :=
  ⟨by decide, (c8_least_strategies poolTallies "M" (by decide)).2.2.1⟩

/-! ## C4: per-key concurrency permits

The tokio `Semaphore` of each key is modelled by its capacity and its number
of currently-acquired permits; `try_acquire_owned` and permit drop are the
two transitions.  `SemReachable` covers every map reachable from a freshly
built pool.
-/

/-- `state.get_semaphore(key)` followed by `semaphore.try_acquire_owned()`
(the permit-acquisition half of `TokenManager::new`): `none` when the key has
no semaphore or no permit is free — never waiting — otherwise the map with
one more permit acquired. -/
def tryAcquire (m : SemMap) (k : String) : Option SemMap :=
  match m k with
  | none => none
  | some s =>
      if s.acquired < s.capacity
      then some (fun k2 => if k2 = k then some ⟨s.capacity, s.acquired + 1⟩ else m k2)
      else none

/-- Dropping a held permit for key `k` (release on drop of
`_connection_permit`). -/
def releasePermit (m : SemMap) (k : String) : SemMap :=
  match m k with
  | none => m
  | some s => fun k2 => if k2 = k then some ⟨s.capacity, s.acquired - 1⟩ else m k2

/-- Semaphore maps reachable from a freshly built pool by acquisitions and
permit drops. -/
inductive SemReachable (providers : List ProviderInfo) : SemMap → Prop where
  | init : SemReachable providers (initSemaphores providers)
  | acquire (m m2 : SemMap) (k : String) : SemReachable providers m →
      tryAcquire m k = some m2 → SemReachable providers m2
  | release (m : SemMap) (k : String) : SemReachable providers m →
      SemReachable providers (releasePermit m k)

/-- The concurrency invariant: no key ever has more acquired permits than its
semaphore's capacity. -/
def SemInv (m : SemMap) : Prop :=
  ∀ k s, m k = some s → s.acquired ≤ s.capacity

theorem foldl_semStep_acquired (ps : List ProviderInfo) (m0 : SemMap)
    (h0 : ∀ k s, m0 k = some s → s.acquired = 0) :
    ∀ k s, (ps.foldl semStep m0) k = some s → s.acquired = 0 := by
  induction ps generalizing m0 with
  | nil => exact h0
  | cons p ps ih =>
    intro k s h
    refine ih (semStep m0 p) ?_ k s h
    intro k2 s2 h2
    unfold semStep at h2
    by_cases hk : k2 = p.api_key
    · rw [if_pos hk] at h2
      cases h2
      rfl
    · rw [if_neg hk] at h2
      exact h0 k2 s2 h2

theorem initSemaphores_acquired (ps : List ProviderInfo) :
    ∀ k s, initSemaphores ps k = some s → s.acquired = 0 :=
  foldl_semStep_acquired ps (fun _ => none) (fun k s h => by simp at h)

theorem foldl_semStep_notin (ps : List ProviderInfo) (m0 : SemMap) (k : String)
    (h : ¬ k ∈ ps.map ProviderInfo.api_key) :
    (ps.foldl semStep m0) k = m0 k := by
  induction ps generalizing m0 with
  | nil => rfl
  | cons p ps ih =>
    simp only [List.map_cons, List.mem_cons] at h
    push_neg at h
    rw [List.foldl_cons, ih (semStep m0 p) h.2]
    unfold semStep
    rw [if_neg h.1]

theorem foldl_semStep_capacity (ps : List ProviderInfo) :
    ∀ (m0 : SemMap) (p : ProviderInfo), (ps.map ProviderInfo.api_key).Nodup → p ∈ ps →
      (ps.foldl semStep m0) p.api_key = some ⟨p.max_connections.toNat, 0⟩ := by
  induction ps with
  | nil =>
    intro m0 p _ hp
    simp at hp
  | cons q qs ih =>
    intro m0 p hnd hp
    simp only [List.map_cons, List.nodup_cons] at hnd
    rw [List.foldl_cons]
    rcases List.mem_cons.mp hp with h1 | h2
    · subst h1
      rw [foldl_semStep_notin qs (semStep m0 p) p.api_key hnd.1]
      unfold semStep
      rw [if_pos rfl]
    · exact ih (semStep m0 q) p hnd.2 h2

/-- On a pool built over providers with pairwise-distinct api keys, every
provider's semaphore starts with `rate_limit` (`max_connections`) permits,
none acquired. -/
theorem initSemaphores_capacity (ps : List ProviderInfo)
    (hnd : (ps.map ProviderInfo.api_key).Nodup) (p : ProviderInfo) (hp : p ∈ ps) :
    initSemaphores ps p.api_key = some ⟨p.max_connections.toNat, 0⟩ :=
  foldl_semStep_capacity ps (fun _ => none) p hnd hp

theorem semInv_init (ps : List ProviderInfo) : SemInv (initSemaphores ps) := by
  intro k s h
  rw [initSemaphores_acquired ps k s h]
  exact Nat.zero_le _

theorem tryAcquire_none (m : SemMap) (k : String) (h : m k = none) :
    tryAcquire m k = none := by
  unfold tryAcquire
  rw [h]

theorem tryAcquire_some (m : SemMap) (k : String) (s : SemState) (h : m k = some s) :
    tryAcquire m k =
      if s.acquired < s.capacity
      then some (fun k2 => if k2 = k then some ⟨s.capacity, s.acquired + 1⟩ else m k2)
      else none := by
  unfold tryAcquire
  rw [h]

theorem releasePermit_none (m : SemMap) (k : String) (h : m k = none) :
    releasePermit m k = m := by
  unfold releasePermit
  rw [h]

theorem releasePermit_some (m : SemMap) (k : String) (s : SemState) (h : m k = some s) :
    releasePermit m k =
      fun k2 => if k2 = k then some ⟨s.capacity, s.acquired - 1⟩ else m k2 := by
  unfold releasePermit
  rw [h]

theorem semInv_acquire (m m2 : SemMap) (k : String) (hinv : SemInv m)
    (h : tryAcquire m k = some m2) : SemInv m2 := by
  rcases hk : m k with _ | s
  · rw [tryAcquire_none m k hk] at h
    exact absurd h (by simp)
  · rw [tryAcquire_some m k s hk] at h
    by_cases hlt : s.acquired < s.capacity
    · rw [if_pos hlt] at h
      simp only [Option.some.injEq] at h
      subst h
      intro k2 s2 h2
      have h2b : (if k2 = k then some (⟨s.capacity, s.acquired + 1⟩ : SemState) else m k2)
          = some s2 := h2
      by_cases hk2 : k2 = k
      · rw [if_pos hk2] at h2b
        cases h2b
        exact hlt
      · rw [if_neg hk2] at h2b
        exact hinv k2 s2 h2b
    · rw [if_neg hlt] at h
      exact absurd h (by simp)

theorem semInv_release (m : SemMap) (k : String) (hinv : SemInv m) :
    SemInv (releasePermit m k) := by
  rcases hk : m k with _ | s
  · rw [releasePermit_none m k hk]
    exact hinv
  · rw [releasePermit_some m k s hk]
    intro k2 s2 h2
    have h2b : (if k2 = k then some (⟨s.capacity, s.acquired - 1⟩ : SemState) else m k2)
        = some s2 := h2
    by_cases hk2 : k2 = k
    · rw [if_pos hk2] at h2b
      cases h2b
      exact le_trans (Nat.sub_le _ _) (hinv k s hk)
    · rw [if_neg hk2] at h2b
      exact hinv k2 s2 h2b

theorem semReachable_inv (ps : List ProviderInfo) (m : SemMap)
    (h : SemReachable ps m) : SemInv m := by
  induction h with
  | init => exact semInv_init ps
  | acquire m m2 k _ hacq ih => exact semInv_acquire m m2 k ih hacq
  | release m k _ ih => exact semInv_release m k ih

/-- C4: in every semaphore map reachable from a freshly built pool, the number
of in-flight permits held for a key never exceeds the key's capacity; the
capacity is `rate_limit` (`max_connections`) permits at build time; and
non-blocking acquisition fails (returns `none` immediately, never waiting)
exactly when the key has no semaphore or all of its permits are in use. -/
theorem c4_permits_bounded (ps : List ProviderInfo) (m : SemMap) (k : String)
    (hreach : SemReachable ps m) :
    SemInv m ∧
    (tryAcquire m k = none ↔
      m k = none ∨ ∃ st, m k = some st ∧ st.acquired = st.capacity) ∧
    (∀ p ∈ ps, (ps.map ProviderInfo.api_key).Nodup →
      initSemaphores ps p.api_key = some ⟨p.max_connections.toNat, 0⟩) := by
  have hinv : SemInv m := semReachable_inv ps m hreach
  refine ⟨hinv, ?_, fun p hp hnd => initSemaphores_capacity ps hnd p hp⟩
  rcases hk : m k with _ | s
  · rw [tryAcquire_none m k hk]
    simp [hk]
  · rw [tryAcquire_some m k s hk]
    by_cases hlt : s.acquired < s.capacity
    · rw [if_pos hlt]
      apply iff_of_false
      · simp
      · rintro (h1 | ⟨st, h2, h3⟩)
        · exact Option.noConfusion h1
        · injection h2 with he
          subst he
          omega
    · rw [if_neg hlt]
      apply iff_of_true rfl
      right
      exact ⟨s, rfl, le_antisymm (hinv k s hk) (by omega)⟩

theorem c4_permits_bounded_witness :
    SemInv (initSemaphores [provA]) ∧
    (tryAcquire (initSemaphores [provA]) "A" = none ↔
      (initSemaphores [provA]) "A" = none ∨
        ∃ st, (initSemaphores [provA]) "A" = some st ∧ st.acquired = st.capacity) :=
  ⟨(c4_permits_bounded [provA] (initSemaphores [provA]) "A" SemReachable.init).1,
   (c4_permits_bounded [provA] (initSemaphores [provA]) "A" SemReachable.init).2.1⟩

/-! ## Text helpers (Rust `str` methods used by the source) -/

/-- Rust `str::contains` on character lists. -/
def containsSub (pat : List Char) : List Char → Bool
  | [] => pat.isEmpty
  | c :: rest => pat.isPrefixOf (c :: rest) || containsSub pat rest

/-- Rust `str::contains` on strings. -/
def strContains (s pat : String) : Bool := containsSub pat.data s.data

/-! ## The provider table (sqlite `api_providers`)

The row layout follows the columns used by the queries of the source.
`balance` is nullable (`NULL` marks a credential verified as invalid);
`created_at`/`updated_at` are opaque instants.
-/

/-- One row of the `api_providers` table. -/
structure DbRow where
  id : String
  name : String
  provider_type : String
  is_official : Bool
  base_url : String
  api_key : String
  status : String
  rate_limit : Int
  balance : Option Rat
  last_balance_check : Option Nat
  min_balance_threshold : Rat
  support_balance_check : Bool
  model_name : String
  model_type : String
  model_version : String
  created_at : Nat
  updated_at : Nat
deriving DecidableEq, Repr

/-- The row-to-`ProviderInfo` mapping of `initialize_provider_pool`'s SQL
query, with the constant columns aliased there (`1 as min_connections`,
`3000 as acquire_timeout_ms`, `60000 as idle_timeout_ms`,
`'RoundRobin' as load_balance_strategy`, `3 as retry_attempts`, and
`rate_limit as max_connections`).  `row.get::<f64>("balance")` would panic on
a NULL balance in the source; such rows are modelled as balance 0. -/
def rowToProviderInfo (r : DbRow) : ProviderInfo :=
  { base_url := r.base_url
    api_key := r.api_key
    max_connections := r.rate_limit
    min_connections := 1
    acquire_timeout_ms := 3000
    idle_timeout_ms := 60000
    load_balance_strategy := "RoundRobin"
    retry_attempts := 3
    balance := r.balance.getD 0
    last_balance_check := r.last_balance_check
    min_balance_threshold := r.min_balance_threshold
    support_balance_check := r.support_balance_check
    model_name := r.model_name
    model_type := r.model_type
    model_version := r.model_version }

/-- `initialize_provider_pool`: build a fresh pool from the rows with
`status = 'Active'`. -/
def initialize_provider_pool (db : List DbRow) : ProviderPoolState :=
  ProviderPoolState.new ((db.filter (fun r => r.status == "Active")).map rowToProviderInfo)

/-- Modelled from the spec: `ProviderPoolState::remove_provider` is called by
`BalanceChecker::remove_zero_balance_provider` and
`remove_invalid_provider`, but its definition is absent from the sources;
per the spec's `RemoveProvider(api_key)`, it removes the record from the
in-memory list and drops its semaphore and tallies (idempotent). -/
def ProviderPoolState.remove_provider (s : ProviderPoolState) (api_key : String) :
    ProviderPoolState :=
  { providers := s.providers.filter (fun p => !(p.api_key == api_key))
    current_index := s.current_index
    token_usage := fun k => if k = api_key then none else s.token_usage k
    connection_semaphores := fun k => if k = api_key then none else s.connection_semaphores k }

/-! ## Balance checker (src/services/balance_checker.rs)

The HTTP `GET <prefix>/v1/user/info` call is abstracted into a per-key
`UpstreamOutcome` oracle: the user-info URL derivation does not affect any
claim, and JSON/float parsing of the 2xx body is folded into the outcome
(`okBalance` carries the parsed balance; `bodyError` is a 2xx whose body
failed `response.json()` or `balance.parse::<f64>()`).
-/

/-- Outcome of one user-info request for a key. -/
inductive UpstreamOutcome where
  | http401
  | httpError (statusLine : String)
  | transportError (msg : String)
  | bodyError (msg : String)
  | okBalance (b : Rat)
deriving DecidableEq, Repr

/-- `BalanceChecker::update_provider_balance_in_db`: write the fetched balance
and `last_balance_check = now` to the row with this `api_key`. -/
def update_provider_balance_in_db (db : List DbRow) (api_key : String) (balance : Rat)
    (now : Nat) : List DbRow :=
  db.map (fun r =>
    if r.api_key = api_key
    then { r with balance := some balance, last_balance_check := some now }
    else r)

/-- `BalanceChecker::update_provider_balance_to_null`: mark the key invalid. -/
def update_provider_balance_to_null (db : List DbRow) (api_key : String) (now : Nat) :
    List DbRow :=
  db.map (fun r =>
    if r.api_key = api_key
    then { r with balance := none, last_balance_check := some now }
    else r)

/-- `BalanceChecker::check_balance_and_update_db`: refresh one key's balance,
writing only to the database, never to the `ProviderInfo` argument. -/
def check_balance_and_update_db (provider : ProviderInfo) (outcome : UpstreamOutcome)
    (db : List DbRow) (now : Nat) : Except String Rat × List DbRow :=
  if !provider.support_balance_check then (Except.ok provider.balance, db)
  else
    match outcome with
    | .http401 =>
        (Except.error "获取余额失败: HTTP 401 Unauthorized",
         update_provider_balance_to_null db provider.api_key now)
    | .httpError statusLine =>
        (Except.error ("获取余额失败: HTTP " ++ statusLine), db)
    | .transportError msg => (Except.error msg, db)
    | .bodyError msg => (Except.error msg, db)
    | .okBalance b =>
        (Except.ok b, update_provider_balance_in_db db provider.api_key b now)

/-- `BalanceChecker::verify_api_key`: the verify-only path used by the batch
admission handler — no database write at all. -/
def verify_api_key (provider : ProviderInfo) (outcome : UpstreamOutcome) :
    Except String Rat :=
  if !provider.support_balance_check then Except.ok provider.balance
  else
    match outcome with
    | .http401 => Except.error "API密钥无效: HTTP 401 Unauthorized"
    | .httpError statusLine => Except.error ("验证API密钥失败: HTTP " ++ statusLine)
    | .transportError msg => Except.error msg
    | .bodyError msg => Except.error msg
    | .okBalance b => Except.ok b

/-- SQL `balance <= 0` (false on NULL). -/
def rowBalanceLeZero (r : DbRow) : Bool :=
  match r.balance with
  | some b => decide (b ≤ 0)
  | none => false

/-- `BalanceChecker::remove_zero_balance_provider`:
`DELETE FROM api_providers WHERE api_key = ? AND balance <= 0`, and when a row
was deleted, `remove_provider` on the checker's pool handle. -/
def remove_zero_balance_provider (db : List DbRow) (pool : ProviderPoolState)
    (api_key : String) : List DbRow × ProviderPoolState :=
  let kept := db.filter (fun r => !((r.api_key == api_key) && rowBalanceLeZero r))
  if db.any (fun r => (r.api_key == api_key) && rowBalanceLeZero r)
  then (kept, pool.remove_provider api_key)
  else (kept, pool)

/-- `BalanceChecker::remove_invalid_provider`:
`DELETE FROM api_providers WHERE api_key = ?`, and when a row was deleted,
`remove_provider` on the checker's pool handle. -/
def remove_invalid_provider (db : List DbRow) (pool : ProviderPoolState)
    (api_key : String) : List DbRow × ProviderPoolState :=
  let kept := db.filter (fun r => !(r.api_key == api_key))
  if db.any (fun r => r.api_key == api_key)
  then (kept, pool.remove_provider api_key)
  else (kept, pool)

/-- Result of `BalanceChecker::check_balance` on its explicit state: the
`Result`, the provider table, the checker's pool handle, and the final value
of the `&mut ProviderInfo` argument. -/
structure CheckBalanceResult where
  result : Except String Unit
  db : List DbRow
  pool : ProviderPoolState
  provider : ProviderInfo

/-- `BalanceChecker::check_balance`: refresh via `check_balance_and_update_db`;
on a fetched balance `<= 0` delete the row (and pool entry); on a 401 error
delete the key outright.  The `&mut provider` argument is threaded through —
the body never assigns to it. -/
def check_balance (provider : ProviderInfo) (outcome : UpstreamOutcome)
    (db : List DbRow) (pool : ProviderPoolState) (now : Nat) : CheckBalanceResult :=
  match check_balance_and_update_db provider outcome db now with
  | (Except.ok balance, db2) =>
      if balance ≤ 0 then
        let r := remove_zero_balance_provider db2 pool provider.api_key
        ⟨Except.ok (), r.1, r.2, provider⟩
      else ⟨Except.ok (), db2, pool, provider⟩
  | (Except.error e, db2) =>
      if strContains e "HTTP 401 Unauthorized" then
        let r := remove_invalid_provider db2 pool provider.api_key
        ⟨Except.error e, r.1, r.2, provider⟩
      else ⟨Except.error e, db2, pool, provider⟩

/-- SQL `balance = 0.0` (false on NULL). -/
def balanceEqZero (r : DbRow) : Bool := decide (r.balance = some 0)

/-- SQL `balance IS NULL`. -/
def balanceIsNull (r : DbRow) : Bool := r.balance.isNone

/-- `BalanceChecker::batch_delete_providers`: one pass deleting rows with
`balance = 0 AND support_balance_check = 1`, then rows with
`balance IS NULL AND support_balance_check = 1`. -/
def batch_delete_providers (db : List DbRow) : List DbRow :=
  (db.filter (fun r => !(balanceEqZero r && r.support_balance_check))).filter
    (fun r => !(balanceIsNull r && r.support_balance_check))

/-- The temporary `ProviderInfo` built for each row inside
`check_all_providers_from_db` (constants as in the source); `balance` is the
row's non-NULL balance column, read before this struct is built. -/
def rowToTempProvider (row : DbRow) (balance : Rat) : ProviderInfo :=
  { base_url := row.base_url
    api_key := row.api_key
    max_connections := 10
    min_connections := 1
    acquire_timeout_ms := 3000
    idle_timeout_ms := 600000
    load_balance_strategy := "RoundRobin"
    retry_attempts := 3
    balance := balance
    last_balance_check := none
    min_balance_threshold := row.min_balance_threshold
    support_balance_check := row.support_balance_check
    model_name := row.model_name
    model_type := row.model_type
    model_version := row.model_version }

/-- Phase 1 of the batch cycle: snapshot the `status = 'Active'` rows, then
for each snapshot row first read its columns — `row.get::<f64>("balance")`
panics on a NULL balance, killing the task with the earlier iterations'
updates already committed; the aborted table is the `Except.error` payload —
then skip rows without `support_balance_check`, and otherwise run
`check_balance_and_update_db`, threading the table (per-key failures leave
the table untouched for that key).  The source iterates the snapshot ordered
by `created_at DESC`; each iteration only writes rows of its own `api_key`,
so the order does not change the final table and the snapshot order is
kept. -/
def reconcilerPhase1 (db : List DbRow) (upstream : String → UpstreamOutcome)
    (now : Nat) : Except (List DbRow) (List DbRow) :=
  (db.filter (fun r => r.status == "Active")).foldl
    (fun acc row =>
      match acc with
      | Except.error cur => Except.error cur
      | Except.ok cur =>
          match row.balance with
          | none => Except.error cur
          | some b =>
              if !row.support_balance_check then Except.ok cur
              else
                Except.ok (check_balance_and_update_db (rowToTempProvider row b)
                  (upstream row.api_key) cur now).2)
    (Except.ok db)

/-- `BalanceChecker::check_all_providers_from_db`, the batch reconciler cycle
run on startup and every 300 seconds.  When the snapshot of active rows is
empty the function returns at once (`if total_count == 0 { return Ok(()) }`)
and the batch deletion does not run; when phase 1 panics on a NULL balance
the task dies (the partially updated table is the `Except.error` payload)
and the batch deletion does not run either; otherwise phase 2 performs the
single-pass batch deletion.  In every case the function never touches
`self.provider_pool` (neither `remove_provider` nor any rebuild is called on
this path), so the in-memory pool is returned untouched — and the checker's
pool handle (built in `main`) is in fact a different object from the
dispatcher's pool (built in `app_routes`). -/
def check_all_providers_from_db (db : List DbRow) (upstream : String → UpstreamOutcome)
    (now : Nat) (pool : ProviderPoolState) :
    Except (List DbRow) (List DbRow) × ProviderPoolState :=
  if db.filter (fun r => r.status == "Active") = [] then (Except.ok db, pool)
  else
    match reconcilerPhase1 db upstream now with
    | Except.error dbPartial => (Except.error dbPartial, pool)
    | Except.ok db2 => (Except.ok (batch_delete_providers db2), pool)

/-! ## C1: the batch reconciler cycle and the pool -/

/-- An active, balance-checked provider row for model `"M"` with balance 5. -/
def rowX : DbRow :=
  { id := "x1"
    name := "X"
    provider_type := "Custom"
    is_official := false
    base_url := "https://x.example/v1/chat/completions"
    api_key := "KX"
    status := "Active"
    rate_limit := 10
    balance := some 5
    last_balance_check := none
    min_balance_threshold := 1
    support_balance_check := true
    model_name := "M"
    model_type := "ChatCompletion"
    model_version := "v3"
    created_at := 0
    updated_at := 0 }

/-- An upstream on which every key reports balance 0. -/
def upstreamZero : String → UpstreamOutcome := fun _ => UpstreamOutcome.okBalance 0

/-- An upstream on which every user-info request fails with HTTP 500. -/
def upstreamFail : String → UpstreamOutcome :=
  fun _ => UpstreamOutcome.httpError "500 Internal Server Error"

/-- C1 counterexample: a pool is built from the single active row `rowX`; the
upstream then reports balance 0, so the batch cycle completes and deletes
the row from the table — yet the provider is still selectable from the
in-memory pool after the cycle completes, because
`check_all_providers_from_db` never rebuilds (nor edits) the pool.  This
refutes the claim that every provider deleted during the cycle is no longer
selectable by dispatches issued after it. -/
theorem c1_cycle_counterexample :
    (check_all_providers_from_db [rowX] upstreamZero 100
        (initialize_provider_pool [rowX])).1 = Except.ok [] ∧
    ((check_all_providers_from_db [rowX] upstreamZero 100
        (initialize_provider_pool [rowX])).2).select_provider "M" "RoundRobin"
      = some (rowToProviderInfo rowX) := by
  constructor
  · rfl
  · decide

theorem batch_delete_complete (db : List DbRow) (r : DbRow)
    (hr : r ∈ batch_delete_providers db) (hsup : r.support_balance_check = true) :
    r.balance ≠ some 0 ∧ r.balance ≠ none := by
  unfold batch_delete_providers at hr
  rw [List.mem_filter] at hr
  obtain ⟨hr3, hq2⟩ := hr
  rw [List.mem_filter] at hr3
  obtain ⟨_, hq1⟩ := hr3
  constructor
  · intro hb
    rw [hsup] at hq1
    simp [balanceEqZero, hb] at hq1
  · intro hb
    rw [hsup] at hq2
    simp [balanceIsNull, hb] at hq2

/-- C1 amended: the batch cycle (startup and every 300 s) never rebuilds the
in-memory pool: whether it returns early on an empty active snapshot, dies
on a NULL balance column, or completes with the single-pass batch deletion,
the pool state is returned untouched, so providers deleted during the cycle
remain selectable until a later successful admission rebuilds the pool.
When the active snapshot is non-empty and the cycle completes, the deletion
is complete: no surviving row with `support_balance_check = true` has
`balance = 0` or `balance IS NULL`. -/
theorem c1_cycle_no_rebuild (db : List DbRow) (upstream : String → UpstreamOutcome)
    (now : Nat) (pool : ProviderPoolState) :
    (check_all_providers_from_db db upstream now pool).2 = pool ∧
    (∀ db2, db.filter (fun r => r.status == "Active") ≠ [] →
      (check_all_providers_from_db db upstream now pool).1 = Except.ok db2 →
      ∀ r ∈ db2, r.support_balance_check = true →
        r.balance ≠ some 0 ∧ r.balance ≠ none) := by
  constructor
  · unfold check_all_providers_from_db
    split
    · rfl
    · split <;> rfl
  · intro db2 hne hok
    unfold check_all_providers_from_db at hok
    rw [if_neg hne] at hok
    rcases hph : reconcilerPhase1 db upstream now with dbp | dbo <;> rw [hph] at hok <;>
      dsimp only at hok
    · exact absurd hok (by simp)
    · injection hok with hok2
      subst hok2
      intro r hr hsup
      exact batch_delete_complete dbo r hr hsup

theorem c1_cycle_no_rebuild_witness :
    [rowX].filter (fun r => r.status == "Active") ≠ [] ∧
    (check_all_providers_from_db [rowX] upstreamFail 100 (ProviderPoolState.new [])).1
      = Except.ok [rowX] ∧
    rowX.support_balance_check = true ∧
    rowX.balance ≠ some 0 :=
  ⟨by decide, rfl, by decide,
    ((c1_cycle_no_rebuild [rowX] upstreamFail 100 (ProviderPoolState.new [])).2 [rowX]
      (by decide) rfl rowX (by decide) (by decide)).1⟩

/-! ## Admission (src/handlers/api/provider.rs)

`{:.4}` float formatting is modelled on rationals with round-half-to-even at
the fourth decimal (the values exercised here are exactly representable, so
this agrees with the `f64` formatting of the source).
-/

/-- Left-pad a decimal string with zeros to four characters. -/
def padZeros4 (s : String) : String :=
  if s.length ≥ 4 then s else String.mk (List.replicate (4 - s.length) '0') ++ s

/-- `q * 10000` rounded to the nearest integer, ties to even, computed on the
numerator and denominator directly. -/
def roundHalfEven10000 (q : Rat) : Int :=
  let n : Int := q.num * 10000
  let d : Int := (q.den : Int)
  let f : Int := Int.fdiv n d
  let rem : Int := n - f * d
  if 2 * rem < d then f
  else if d < 2 * rem then f + 1
  else if f % 2 = 0 then f else f + 1

/-- Rust `format!("{:.4}", x)` for the non-negative balances at issue. -/
def formatFixed4 (q : Rat) : String :=
  let m : Int := roundHalfEven10000 q
  let sign : String := if m < 0 then "-" else ""
  let a : Nat := m.natAbs
  sign ++ Nat.repr (a / 10000) ++ "." ++ padZeros4 (Nat.repr (a % 10000))

/-- `AddProviderRequest` after serde defaults (`rate_limit` 10,
`min_balance_threshold` 1.0, `support_balance_check` true,
`model_type` `"ChatCompletion"`, `model_version` `"v3"`) have been applied to
the submitted JSON. -/
structure AddProviderRequest where
  api_key : String
  provider_type : String
  model_name : String
  name : Option String
  base_url : Option String
  is_official : Bool
  rate_limit : Nat
  min_balance_threshold : Rat
  support_balance_check : Bool
  model_type : String
  model_version : String
deriving DecidableEq, Repr

def default_rate_limit : Nat := 10

def default_min_balance_threshold : Rat := 1

def default_support_balance_check : Bool := true

def default_model_type : String := "ChatCompletion"

def default_model_version : String := "v3"

/-- `AddProviderRequest::get_default_base_url`. -/
def AddProviderRequest.get_default_base_url (r : AddProviderRequest) : String :=
  match r.provider_type with
  | "DeepSeek" => "https://api.siliconflow.cn/v1/chat/completions"
  | "OpenAI" => "https://api.openai.com/v1/chat/completions"
  | "Anthropic" => "https://api.anthropic.com/v1/messages"
  | "MistralAI" => "https://api.mistral.ai/v1/chat/completions"
  | _ => ""

/-- `AddProviderRequest::get_name` (the source draws a fresh `Uuid::new_v4`
on every call when `name` is absent; that uuid is the parameter here). -/
def AddProviderRequest.get_name (r : AddProviderRequest) (uuid : String) : String :=
  match r.name with
  | some n => n
  | none => r.provider_type ++ "-" ++ String.mk (uuid.data.drop (uuid.data.length - 8))

/-- `AddProviderRequest::get_base_url`. -/
def AddProviderRequest.get_base_url (r : AddProviderRequest) : String :=
  (r.base_url).getD r.get_default_base_url

/-- `ProviderAddResult` (timestamps as opaque instants). -/
structure ProviderAddResult where
  id : Option String
  name : String
  api_key : String
  balance : Option Rat
  error : Option String
  created_at : Option Nat
deriving DecidableEq, Repr

/-- The temporary `ProviderInfo` both admission handlers build for the
balance check (`balance` starts at 0.0). -/
def requestTempProvider (req : AddProviderRequest) : ProviderInfo :=
  { base_url := req.get_base_url
    api_key := req.api_key
    max_connections := 10
    min_connections := 1
    acquire_timeout_ms := 3000
    idle_timeout_ms := 600000
    load_balance_strategy := "RoundRobin"
    retry_attempts := 3
    balance := 0
    last_balance_check := none
    min_balance_threshold := req.min_balance_threshold
    support_balance_check := req.support_balance_check
    model_name := req.model_name
    model_type := req.model_type
    model_version := req.model_version }

/-- The row inserted by the admission upsert: `id` and `created_at` come from
`COALESCE((SELECT ... FROM api_providers WHERE api_key = ?), <new>)`; every
other column is bound from the request, the verified balance and `now`. -/
def upsertRow (db : List DbRow) (req : AddProviderRequest) (newId name2 : String)
    (balance : Rat) (now : Nat) : DbRow :=
  let old := db.find? (fun r => r.api_key == req.api_key)
  { id := (old.map DbRow.id).getD newId
    name := name2
    provider_type := req.provider_type
    is_official := req.is_official
    base_url := req.get_base_url
    api_key := req.api_key
    status := "Active"
    rate_limit := req.rate_limit
    balance := some balance
    last_balance_check := some now
    min_balance_threshold := req.min_balance_threshold
    support_balance_check := req.support_balance_check
    model_name := req.model_name
    model_type := req.model_type
    model_version := req.model_version
    created_at := (old.map DbRow.created_at).getD now
    updated_at := now }

/-- The `INSERT OR REPLACE INTO api_providers` upsert of both admission
handlers.  Modelled from the spec where the schema is concerned: the
migrations directory is not among the given sources, and the spec declares
`api_key` unique across the provider table, under which `INSERT OR REPLACE`
deletes the conflicting row and appends the new one. -/
def upsertProvider (db : List DbRow) (req : AddProviderRequest) (newId name2 : String)
    (balance : Rat) (now : Nat) : List DbRow :=
  db.filter (fun r => !(r.api_key == req.api_key)) ++ [upsertRow db req newId name2 balance now]

/-- Observable outcome of an admission handler: HTTP status, the `success`
and `failed` result lists, and the final table and pool. -/
structure AdmissionResult where
  status : Nat
  success : List ProviderAddResult
  failed : List ProviderAddResult
  db : List DbRow
  pool : ProviderPoolState

/-- The successful-insert tail of `add_provider`: upsert, push the success
entry, and replace the pool with one rebuilt from the table. -/
def admissionInsert (req : AddProviderRequest) (db : List DbRow)
    (idUuid nameUuid : String) (balance : Rat) (now : Nat) : AdmissionResult :=
  let db2 := upsertProvider db req idUuid (req.get_name nameUuid) balance now
  { status := 201
    success := [⟨some idUuid, req.get_name nameUuid, req.api_key, some balance, none, some now⟩]
    failed := []
    db := db2
    pool := initialize_provider_pool db2 }

/-- `add_provider` (POST `/v1/providers`), the single-credential handler.
When `support_balance_check` it validates through the database-writing
`check_balance` (not the verify-only `verify_api_key`) and afterwards
re-reads `provider_info.balance` — which `check_balance` never updated. -/
def add_provider (req : AddProviderRequest) (outcome : UpstreamOutcome)
    (db : List DbRow) (pool : ProviderPoolState) (idUuid nameUuid : String)
    (now : Nat) : AdmissionResult :=
  let provider_info := requestTempProvider req
  if req.support_balance_check then
    let cb := check_balance provider_info outcome db pool now
    match cb.result with
    | Except.ok _ =>
        if cb.provider.balance ≤ 0 then
          { status := 200
            success := []
            failed := [⟨none, req.get_name nameUuid, req.api_key, some cb.provider.balance,
              some "API key 余额为0，无法使用，请先充值后再添加", none⟩]
            db := cb.db
            pool := cb.pool }
        else admissionInsert req cb.db idUuid nameUuid cb.provider.balance now
    | Except.error e =>
        { status := 200
          success := []
          failed := [⟨none, req.get_name nameUuid, req.api_key, none,
            some ("检查余额失败: " ++ e), none⟩]
          db := cb.db
          pool := cb.pool }
  else admissionInsert req db idUuid nameUuid provider_info.balance now

/-- One submitted credential of a batch request together with the two uuids
the loop iteration draws. -/
structure BatchItem where
  req : AddProviderRequest
  idUuid : String
  nameUuid : String
deriving DecidableEq, Repr

/-- The body of the `batch_add_providers` loop for one credential. -/
def batchStep (upstream : String → UpstreamOutcome) (now : Nat)
    (acc : List DbRow × List ProviderAddResult × List ProviderAddResult)
    (it : BatchItem) : List DbRow × List ProviderAddResult × List ProviderAddResult :=
  let (dbAcc, succAcc, failAcc) := acc
  let provider_info := requestTempProvider it.req
  if it.req.support_balance_check then
    match verify_api_key provider_info (upstream it.req.api_key) with
    | Except.ok balance =>
        if balance < it.req.min_balance_threshold then
          (dbAcc, succAcc,
           failAcc ++ [⟨none, it.req.get_name it.nameUuid, it.req.api_key, some balance,
             some ("余额不足: " ++ formatFixed4 balance ++ " < "
               ++ formatFixed4 it.req.min_balance_threshold), none⟩])
        else
          (upsertProvider dbAcc it.req it.idUuid (it.req.get_name it.nameUuid) balance now,
           succAcc ++ [⟨some it.idUuid, it.req.get_name it.nameUuid, it.req.api_key,
             some balance, none, some now⟩],
           failAcc)
    | Except.error e =>
        (dbAcc, succAcc,
         failAcc ++ [⟨none, it.req.get_name it.nameUuid, it.req.api_key, none,
           some ("API密钥验证失败: " ++ e), none⟩])
  else
    (upsertProvider dbAcc it.req it.idUuid (it.req.get_name it.nameUuid) provider_info.balance now,
     succAcc ++ [⟨some it.idUuid, it.req.get_name it.nameUuid, it.req.api_key,
       some provider_info.balance, none, some now⟩],
     failAcc)

/-- `batch_add_providers` (POST `/v1/providers/batch`): verify each credential
through the verify-only `verify_api_key`, reject those below their
`min_balance_threshold` with `"余额不足: <b> < <t>"`, upsert the rest, and
rebuild the pool iff at least one credential succeeded.  Returns 201. -/
def batch_add_providers (items : List BatchItem) (upstream : String → UpstreamOutcome)
    (db : List DbRow) (pool : ProviderPoolState) (now : Nat) : AdmissionResult :=
  let r := items.foldl (batchStep upstream now) (db, [], [])
  { status := 201
    success := r.2.1
    failed := r.2.2
    db := r.1
    pool := if r.2.1 ≠ [] then initialize_provider_pool r.1 else pool }

/-- The credential of spec scenario 6: balance-checked, threshold 5.0. -/
def reqS6cfg : AddProviderRequest :=
  { api_key := "K6"
    provider_type := "OpenAI"
    model_name := "M"
    name := some "P6"
    base_url := none
    is_official := false
    rate_limit := 10
    min_balance_threshold := 5
    support_balance_check := true
    model_type := "ChatCompletion"
    model_version := "v3" }

/-! ## C10: `check_balance` never writes its provider argument -/

theorem check_balance_provider_eq (provider : ProviderInfo) (outcome : UpstreamOutcome)
    (db : List DbRow) (pool : ProviderPoolState) (now : Nat) :
    (check_balance provider outcome db pool now).provider = provider := by
  unfold check_balance
  rcases check_balance_and_update_db provider outcome db now with ⟨res, dbx⟩
  rcases res with e | b
  · dsimp only
    split <;> rfl
  · dsimp only
    split <;> rfl

/-- C10: `BalanceChecker::check_balance` takes its `ProviderInfo` argument by
mutable reference but never writes to it: the argument is returned unchanged
whatever the upstream outcome; consequently the single-credential admission
handler, which inspects `provider_info.balance` after a successful check,
observes the pre-call value 0.0 and emits the zero-balance rejection. -/
theorem c10_check_balance_frame (provider : ProviderInfo) (outcome : UpstreamOutcome)
    (db : List DbRow) (pool : ProviderPoolState) (now : Nat)
    (req : AddProviderRequest) (outcome2 : UpstreamOutcome) (db2 : List DbRow)
    (pool2 : ProviderPoolState) (idU nameU : String) (now2 : Nat)
    (hsup : req.support_balance_check = true) :
    (check_balance provider outcome db pool now).provider = provider ∧
    ((check_balance (requestTempProvider req) outcome2 db2 pool2 now2).result.isOk = true →
      (add_provider req outcome2 db2 pool2 idU nameU now2).success = [] ∧
      (add_provider req outcome2 db2 pool2 idU nameU now2).failed
        = [⟨none, req.get_name nameU, req.api_key, some 0,
            some "API key 余额为0，无法使用，请先充值后再添加", none⟩]) := by
  refine ⟨check_balance_provider_eq provider outcome db pool now, ?_⟩
  intro hok
  unfold add_provider
  simp only [hsup, if_true]
  rcases hres : (check_balance (requestTempProvider req) outcome2 db2 pool2 now2).result
    with e | a
  · rw [hres] at hok
    simp [Except.isOk, Except.toBool] at hok
  · dsimp only
    rw [check_balance_provider_eq]
    rw [if_pos (show (requestTempProvider req).balance ≤ 0 from le_refl 0)]
    exact ⟨rfl, rfl⟩

theorem c10_check_balance_frame_witness :
    reqS6cfg.support_balance_check = true ∧
    (check_balance (requestTempProvider reqS6cfg) (UpstreamOutcome.okBalance 7) []
      (ProviderPoolState.new []) 3).provider = requestTempProvider reqS6cfg :=
  ⟨rfl,
   (c10_check_balance_frame (requestTempProvider reqS6cfg) (UpstreamOutcome.okBalance 7) []
     (ProviderPoolState.new []) 3 reqS6cfg (UpstreamOutcome.okBalance 7) []
     (ProviderPoolState.new []) "uuid-aaaaaaaa" "uuid-bbbbbbbb" 3 rfl).1⟩

/-! ## C2: admission verification paths -/

/-- An upstream on which every key reports balance 2.5 with HTTP 2xx. -/
def upstream25 : String → UpstreamOutcome := fun _ => UpstreamOutcome.okBalance (mkRat 5 2)

/-- C2: evaluating both admission handlers on the scenario credential
(`min_balance_threshold` 5.0, upstream 2xx with balance 2.5).  The batch
handler follows the claim: verify-only path and rejection
`"余额不足: 2.5000 < 5.0000"` with no row inserted.  The single handler
`add_provider` instead routes through the database-writing `check_balance`
and rejects with the zero-balance error `"API key 余额为0，无法使用，请先充值后再添加"`
because it re-reads the in-memory balance that `check_balance` never updated
— it does so even for a fully funded key (balance 100 ≥ 5). -/
theorem c2_admission_paths_eval :
    (add_provider reqS6cfg (UpstreamOutcome.okBalance (mkRat 5 2)) [] (ProviderPoolState.new [])
        "uuid-aaaaaaaa" "uuid-bbbbbbbb" 50).failed
      = [⟨none, "P6", "K6", some 0, some "API key 余额为0，无法使用，请先充值后再添加", none⟩] ∧
    (add_provider reqS6cfg (UpstreamOutcome.okBalance (mkRat 5 2)) [] (ProviderPoolState.new [])
        "uuid-aaaaaaaa" "uuid-bbbbbbbb" 50).success = [] ∧
    (add_provider reqS6cfg (UpstreamOutcome.okBalance (mkRat 5 2)) [] (ProviderPoolState.new [])
        "uuid-aaaaaaaa" "uuid-bbbbbbbb" 50).db = [] ∧
    (add_provider reqS6cfg (UpstreamOutcome.okBalance 100) [] (ProviderPoolState.new [])
        "uuid-aaaaaaaa" "uuid-bbbbbbbb" 50).success = [] ∧
    (batch_add_providers [⟨reqS6cfg, "uuid-aaaaaaaa", "uuid-bbbbbbbb"⟩] upstream25 []
        (ProviderPoolState.new []) 50).failed
      = [⟨none, "P6", "K6", some (mkRat 5 2), some "余额不足: 2.5000 < 5.0000", none⟩] ∧
    (batch_add_providers [⟨reqS6cfg, "uuid-aaaaaaaa", "uuid-bbbbbbbb"⟩] upstream25 []
        (ProviderPoolState.new []) 50).db = [] := by
  refine ⟨?_, ?_, ?_, ?_, ?_, ?_⟩ <;> decide

/-! ## C7: upsert by api_key -/

theorem find?_filter_not {α : Type} (p : α → Bool) (l : List α) :
    (l.filter (fun a => !(p a))).find? p = none := by
  induction l with
  | nil => rfl
  | cons x xs ih =>
    rw [List.filter_cons]
    by_cases hx : p x
    · simp only [hx, Bool.not_true, Bool.false_eq_true, if_false]
      exact ih
    · simp only [Bool.not_eq_true] at hx
      simp only [hx, Bool.not_false, if_true]
      rw [List.find?_cons_of_neg _ (by simp [hx])]
      exact ih

theorem find?_append_of_none {α : Type} (p : α → Bool) (l1 l2 : List α)
    (h : l1.find? p = none) : (l1 ++ l2).find? p = l2.find? p := by
  induction l1 with
  | nil => rfl
  | cons x xs ih =>
    cases hx : p x
    · rw [List.find?_cons_of_neg _ (by simp [hx])] at h
      rw [List.cons_append, List.find?_cons_of_neg _ (by simp [hx])]
      exact ih h
    · rw [List.find?_cons_of_pos _ hx] at h
      exact Option.noConfusion h

theorem upsert_filter_ne (db : List DbRow) (req : AddProviderRequest) (i nm : String)
    (b : Rat) (now : Nat) :
    (upsertProvider db req i nm b now).filter (fun r => !(r.api_key == req.api_key))
      = db.filter (fun r => !(r.api_key == req.api_key)) := by
  unfold upsertProvider
  rw [List.filter_append]
  have h1 : (db.filter (fun r => !(r.api_key == req.api_key))).filter
      (fun r => !(r.api_key == req.api_key))
      = db.filter (fun r => !(r.api_key == req.api_key)) := by
    rw [List.filter_filter]
    apply List.filter_congr
    intro a _
    rw [Bool.and_self]
  have h2 : ([upsertRow db req i nm b now]).filter
      (fun r => !(r.api_key == req.api_key)) = [] := by
    simp [upsertRow]
  rw [h1, h2, List.append_nil]

theorem upsert_find? (db : List DbRow) (req : AddProviderRequest) (i nm : String)
    (b : Rat) (now : Nat) :
    (upsertProvider db req i nm b now).find? (fun r => r.api_key == req.api_key)
      = some (upsertRow db req i nm b now) := by
  unfold upsertProvider
  rw [find?_append_of_none _ _ _ (find?_filter_not _ db)]
  rw [List.find?_cons_of_pos]
  simp [upsertRow]

theorem upsert_filter_eq (db : List DbRow) (req : AddProviderRequest) (i nm : String)
    (b : Rat) (now : Nat) :
    (upsertProvider db req i nm b now).filter (fun r => r.api_key == req.api_key)
      = [upsertRow db req i nm b now] := by
  unfold upsertProvider
  rw [List.filter_append]
  have h1 : (db.filter (fun r => !(r.api_key == req.api_key))).filter
      (fun r => r.api_key == req.api_key) = [] := by
    rw [List.filter_filter]
    apply List.filter_eq_nil_iff.mpr
    intro a _
    cases h : a.api_key == req.api_key <;> simp [h]
  rw [h1]
  simp [upsertRow]

theorem upsert_keys_nodup (db : List DbRow) (req : AddProviderRequest) (i nm : String)
    (b : Rat) (now : Nat) (hnd : (db.map DbRow.api_key).Nodup) :
    ((upsertProvider db req i nm b now).map DbRow.api_key).Nodup := by
  unfold upsertProvider
  rw [List.map_append, List.nodup_append]
  refine ⟨List.Nodup.sublist (List.Sublist.map _ (List.filter_sublist db)) hnd, by simp, ?_⟩
  intro a ha hb
  simp only [upsertRow, List.map_cons, List.map_nil, List.mem_singleton] at hb
  rw [List.mem_map] at ha
  obtain ⟨r, hr, rfl⟩ := ha
  have hf := List.of_mem_filter hr
  simp only [Bool.not_eq_true'] at hf
  rw [hb] at hf
  simp at hf

/-- C7: admitting a credential whose `api_key` already exists preserves the
row's `id` and `created_at` while rewriting all other fields, `updated_at`
and the verified balance; `api_key` stays unique, so upserting the same key
twice leaves exactly one row for it, with `id` and `created_at` unchanged
and the remaining columns those of the second admission; rows with other
keys are untouched. -/
theorem c7_upsert_identity (db : List DbRow) (req : AddProviderRequest)
    (idA idB nmA nmB : String) (bA bB : Rat) (nowA nowB : Nat)
    (hnd : (db.map DbRow.api_key).Nodup) :
    ((upsertProvider (upsertProvider db req idA nmA bA nowA) req idB nmB bB nowB).map
        DbRow.api_key).Nodup ∧
    (upsertProvider (upsertProvider db req idA nmA bA nowA) req idB nmB bB nowB).filter
        (fun r => r.api_key == req.api_key)
      = [{ id := ((db.find? (fun r => r.api_key == req.api_key)).map DbRow.id).getD idA
           name := nmB
           provider_type := req.provider_type
           is_official := req.is_official
           base_url := req.get_base_url
           api_key := req.api_key
           status := "Active"
           rate_limit := req.rate_limit
           balance := some bB
           last_balance_check := some nowB
           min_balance_threshold := req.min_balance_threshold
           support_balance_check := req.support_balance_check
           model_name := req.model_name
           model_type := req.model_type
           model_version := req.model_version
           created_at := ((db.find? (fun r => r.api_key == req.api_key)).map
             DbRow.created_at).getD nowA
           updated_at := nowB }] ∧
    (upsertProvider (upsertProvider db req idA nmA bA nowA) req idB nmB bB nowB).filter
        (fun r => !(r.api_key == req.api_key))
      = db.filter (fun r => !(r.api_key == req.api_key)) := by
  refine ⟨upsert_keys_nodup _ _ _ _ _ _ (upsert_keys_nodup _ _ _ _ _ _ hnd), ?_, ?_⟩
  · rw [upsert_filter_eq]
    congr 1
    simp only [upsertRow]
    rw [upsert_find?]
    simp only [Option.map_some', Option.getD_some]
    rfl
  · rw [upsert_filter_ne, upsert_filter_ne]

theorem c7_upsert_identity_witness :
    (([] : List DbRow).map DbRow.api_key).Nodup ∧
    (upsertProvider (upsertProvider [] reqS6cfg "idA" "nmA" 3 10) reqS6cfg "idB" "nmB" 4 20).filter
        (fun r => r.api_key == reqS6cfg.api_key)
      = [{ id := "idA"
           name := "nmB"
           provider_type := reqS6cfg.provider_type
           is_official := reqS6cfg.is_official
           base_url := reqS6cfg.get_base_url
           api_key := reqS6cfg.api_key
           status := "Active"
           rate_limit := reqS6cfg.rate_limit
           balance := some 4
           last_balance_check := some 20
           min_balance_threshold := reqS6cfg.min_balance_threshold
           support_balance_check := reqS6cfg.support_balance_check
           model_name := reqS6cfg.model_name
           model_type := reqS6cfg.model_type
           model_version := reqS6cfg.model_version
           created_at := 10
           updated_at := 20 }] :=
  ⟨by decide,
   (c7_upsert_identity [] reqS6cfg "idA" "idB" "nmA" "nmB" 3 4 10 20 (by decide)).2.1⟩

/-! ## Upstream client retry loop (`call_api`, src/handlers/api/chat_completion.rs) -/

/-- The OpenAI-shaped `Usage` object (the optional Grok extension fields are
absent in every flow at issue and are elided). -/
structure Usage where
  prompt_tokens : Nat
  completion_tokens : Nat
  total_tokens : Nat
deriving DecidableEq, Repr

/-- The OpenAI-shaped upstream response; only the fields the handlers read
are carried. -/
structure ApiResponse where
  model : String
  usage : Usage
deriving DecidableEq, Repr

/-- `RETRY_DELAY`: the fixed delay between attempts, in seconds. -/
def RETRY_DELAY : Nat := 1

/-- What one `client.post(..).send().await` (plus body reading and the
abstracted `serde_json::from_str::<ApiResponse>`) can produce for one
attempt: a transport timeout, another transport error, or an HTTP response
carrying its numeric status, its display line, its body text and the parse
result of that body. -/
inductive SendOutcome where
  | timeout (msg : String)
  | transportError (msg : String)
  | response (status : Nat) (statusLine : String) (body : String)
      (parsed : Except String ApiResponse)

/-- `StatusCode::is_success` (2xx). -/
def isSuccessStatus (status : Nat) : Bool := 200 ≤ status && status < 300

/-- The `for attempt in 0..retry_attempts` loop of `call_api`: returns the
result, the number of attempts made, and the list of sleeps performed. -/
def callApiLoop (outcomes : Nat → SendOutcome) (retry : Nat) (attempt : Nat)
    (sleeps : List Nat) : Except String ApiResponse × Nat × List Nat :=
  if _hlt : attempt < retry then
    match outcomes attempt with
    | .response status statusLine body parsed =>
      if isSuccessStatus status then
        match parsed with
        | .ok r => (.ok r, attempt + 1, sleeps)
        | .error e => (.error ("解析响应失败: " ++ e), attempt + 1, sleeps)
      else if attempt + 1 < retry then
        callApiLoop outcomes retry (attempt + 1) (sleeps ++ [RETRY_DELAY])
      else
        (.error ("API调用失败，状态码: " ++ statusLine ++ "，错误: " ++ body),
         attempt + 1, sleeps)
    | .timeout msg =>
      if attempt + 1 < retry then
        callApiLoop outcomes retry (attempt + 1) (sleeps ++ [RETRY_DELAY])
      else (.error ("请求失败: " ++ msg), attempt + 1, sleeps)
    | .transportError msg => (.error ("请求失败: " ++ msg), attempt + 1, sleeps)
  else (.error ("达到最大重试次数(" ++ Nat.repr retry ++ ")，请求失败"), attempt, sleeps)
termination_by retry - attempt
decreasing_by all_goals omega

/-- `call_api`: upstream call with the provider's retry budget (3 for every
pooled provider). -/
def call_api (outcomes : Nat → SendOutcome) (provider : ProviderInfo) :
    Except String ApiResponse × Nat × List Nat :=
  callApiLoop outcomes provider.retry_attempts.toNat 0 []

/-- The outcomes the loop retries on: transport timeout and non-2xx status. -/
def retryableOutcome : SendOutcome → Bool
  | .timeout _ => true
  | .transportError _ => false
  | .response status _ _ _ => !isSuccessStatus status

theorem callApiLoop_attempts (o : Nat → SendOutcome) (retry : Nat) :
    ∀ (fuel a : Nat) (s : List Nat), retry - a = fuel → a < retry →
      a + 1 ≤ (callApiLoop o retry a s).2.1 ∧ (callApiLoop o retry a s).2.1 ≤ retry := by
  intro fuel
  induction fuel with
  | zero =>
    intro a s hf ha
    omega
  | succ n ih =>
    intro a s hf ha
    unfold callApiLoop
    rw [dif_pos ha]
    split
    · split
      · split
        · exact ⟨Nat.le_refl _, ha⟩
        · exact ⟨Nat.le_refl _, ha⟩
      · split
        next h2 =>
          have hih := ih (a + 1) (s ++ [RETRY_DELAY]) (by omega) h2
          exact ⟨le_trans (Nat.le_succ (a + 1)) hih.1, hih.2⟩
        next h2 =>
          exact ⟨Nat.le_refl _, ha⟩
    · split
      next h2 =>
        have hih := ih (a + 1) (s ++ [RETRY_DELAY]) (by omega) h2
        exact ⟨le_trans (Nat.le_succ (a + 1)) hih.1, hih.2⟩
      next h2 =>
        exact ⟨Nat.le_refl _, ha⟩
    · exact ⟨Nat.le_refl _, ha⟩

theorem callApiLoop_sleeps (o : Nat → SendOutcome) (retry : Nat) :
    ∀ (fuel a : Nat) (s : List Nat), retry - a = fuel → a < retry →
      (callApiLoop o retry a s).2.2
        = s ++ List.replicate ((callApiLoop o retry a s).2.1 - (a + 1)) RETRY_DELAY := by
  intro fuel
  induction fuel with
  | zero =>
    intro a s hf ha
    omega
  | succ n ih =>
    intro a s hf ha
    have hrec : ∀ s2 : List Nat, a + 1 < retry →
        (callApiLoop o retry (a + 1) (s2 ++ [RETRY_DELAY])).2.2
          = s2 ++ List.replicate
              ((callApiLoop o retry (a + 1) (s2 ++ [RETRY_DELAY])).2.1 - (a + 1))
              RETRY_DELAY := by
      intro s2 h2
      rw [ih (a + 1) (s2 ++ [RETRY_DELAY]) (by omega) h2]
      have hge := (callApiLoop_attempts o retry (retry - (a + 1)) (a + 1)
        (s2 ++ [RETRY_DELAY]) rfl h2).1
      rw [List.append_assoc]
      congr 1
      have hk : (callApiLoop o retry (a + 1) (s2 ++ [RETRY_DELAY])).2.1 - (a + 1)
          = ((callApiLoop o retry (a + 1) (s2 ++ [RETRY_DELAY])).2.1 - (a + 2)) + 1 := by
        omega
      rw [hk, List.replicate_succ]
      rfl
    unfold callApiLoop
    rw [dif_pos ha]
    split
    · split
      · split
        · simp
        · simp
      · split
        next h2 => exact hrec s h2
        next h2 => simp
    · split
      next h2 => exact hrec s h2
      next h2 => simp
    · simp

theorem callApiLoop_retryable (o : Nat → SendOutcome) (retry : Nat) :
    ∀ (fuel a : Nat) (s : List Nat), retry - a = fuel → a < retry →
      ∀ i, a ≤ i → i + 1 < (callApiLoop o retry a s).2.1 →
        retryableOutcome (o i) = true := by
  intro fuel
  induction fuel with
  | zero =>
    intro a s hf ha
    omega
  | succ n ih =>
    intro a s hf ha
    unfold callApiLoop
    rw [dif_pos ha]
    split
    next st l b pr heq =>
      split
      next hs =>
        split
        · intro i hai hlt
          simp only at hlt
          omega
        · intro i hai hlt
          simp only at hlt
          omega
      next hs =>
        split
        next h2 =>
          intro i hai hlt
          by_cases hia : i = a
          · subst hia
            rw [heq]
            simp only [retryableOutcome]
            simp only [Bool.not_eq_true] at hs
            rw [hs]
            rfl
          · exact ih (a + 1) (s ++ [RETRY_DELAY]) (by omega) h2 i (by omega) hlt
        next h2 =>
          intro i hai hlt
          simp only at hlt
          omega
    next m heq =>
      split
      next h2 =>
        intro i hai hlt
        by_cases hia : i = a
        · subst hia
          rw [heq]
          rfl
        · exact ih (a + 1) (s ++ [RETRY_DELAY]) (by omega) h2 i (by omega) hlt
      next h2 =>
        intro i hai hlt
        simp only at hlt
        omega
    next m heq =>
      intro i hai hlt
      simp only at hlt
      omega

/-- C6: for every non-streaming upstream call against a pooled provider
(`retry_attempts = 3` for every row `initialize_provider_pool` produces), the
client makes at most 3 attempts; every sleep between attempts is the fixed
1-second `RETRY_DELAY` (one per retry); every non-final attempt's outcome was
retryable — transport timeout or non-2xx status — so nothing else is ever
retried; a timeout and a non-2xx first outcome do lead to a second attempt; a
2xx response whose body fails to parse returns the parse error with no
retry; and a non-timeout transport error aborts the loop immediately. -/
theorem c6_call_api_retry_policy (outcomes : Nat → SendOutcome) (p : ProviderInfo)
    (h3 : p.retry_attempts = 3) :
    (call_api outcomes p).2.1 ≤ 3 ∧
    (call_api outcomes p).2.2
      = List.replicate ((call_api outcomes p).2.1 - 1) RETRY_DELAY ∧
    (∀ i, i + 1 < (call_api outcomes p).2.1 → retryableOutcome (outcomes i) = true) ∧
    (∀ msg, outcomes 0 = SendOutcome.timeout msg → 2 ≤ (call_api outcomes p).2.1) ∧
    (∀ st l b pr, outcomes 0 = SendOutcome.response st l b pr →
      isSuccessStatus st = false → 2 ≤ (call_api outcomes p).2.1) ∧
    (∀ st l b e, isSuccessStatus st = true →
      outcomes 0 = SendOutcome.response st l b (Except.error e) →
      (call_api outcomes p).2.1 = 1 ∧
        (call_api outcomes p).1 = Except.error ("解析响应失败: " ++ e)) ∧
    (∀ msg, outcomes 0 = SendOutcome.transportError msg →
      (call_api outcomes p).2.1 = 1 ∧
        (call_api outcomes p).1 = Except.error ("请求失败: " ++ msg)) ∧
    (∀ r : DbRow, (rowToProviderInfo r).retry_attempts = 3) := by
  have hc : call_api outcomes p = callApiLoop outcomes 3 0 [] := by
    unfold call_api
    rw [h3]
    rfl
  rw [hc]
  have hb := callApiLoop_attempts outcomes 3 3 0 [] rfl (by omega)
  refine ⟨hb.2, ?_, ?_, ?_, ?_, ?_, ?_, fun r => rfl⟩
  · have hs := callApiLoop_sleeps outcomes 3 3 0 [] rfl (by omega)
    simpa using hs
  · intro i hi
    exact callApiLoop_retryable outcomes 3 3 0 [] rfl (by omega) i (Nat.zero_le i) hi
  · intro msg h0
    unfold callApiLoop
    rw [dif_pos (show (0:Nat) < 3 by omega), h0]
    dsimp only
    rw [if_pos (show (0:Nat) + 1 < 3 by omega)]
    exact (callApiLoop_attempts outcomes 3 2 1 ([] ++ [RETRY_DELAY]) rfl (by omega)).1
  · intro st l b pr h0 hfail
    unfold callApiLoop
    rw [dif_pos (show (0:Nat) < 3 by omega), h0]
    dsimp only
    rw [if_neg (show ¬ isSuccessStatus st = true by rw [hfail]; exact Bool.false_ne_true)]
    rw [if_pos (show (0:Nat) + 1 < 3 by omega)]
    exact (callApiLoop_attempts outcomes 3 2 1 ([] ++ [RETRY_DELAY]) rfl (by omega)).1
  · intro st l b e hsucc h0
    unfold callApiLoop
    rw [dif_pos (show (0:Nat) < 3 by omega), h0]
    dsimp only
    rw [if_pos hsucc]
    exact ⟨rfl, rfl⟩
  · intro msg h0
    unfold callApiLoop
    rw [dif_pos (show (0:Nat) < 3 by omega), h0]
    dsimp only
    exact ⟨rfl, rfl⟩

theorem c6_call_api_retry_policy_witness :
    (rowToProviderInfo rowX).retry_attempts = 3 ∧
    (call_api (fun _ => SendOutcome.transportError "boom") (rowToProviderInfo rowX)).2.1 ≤ 3 :=
  ⟨rfl, (c6_call_api_retry_policy (fun _ => SendOutcome.transportError "boom")
    (rowToProviderInfo rowX) rfl).1⟩

/-! ## Streaming dispatch (`handle_stream_response`, src/handlers/api/chat_completion.rs) -/

/-- Rust `str::trim_start_matches`: repeatedly strip the prefix `pat`. -/
def dropPrefAll (pat s : List Char) : List Char :=
  if hp : pat ≠ [] ∧ pat.isPrefixOf s then dropPrefAll pat (s.drop pat.length) else s
termination_by s.length
decreasing_by
  simp_wf
  obtain ⟨h1, h2⟩ := hp
  have hle : pat.length ≤ s.length := (List.isPrefixOf_iff_prefix.mp h2).length_le
  have hpos : 0 < pat.length := List.length_pos.mpr h1
  omega

/-- Rust `str::trim_end_matches`: repeatedly strip the suffix `pat`. -/
def trimEndAll (pat s : List Char) : List Char :=
  (dropPrefAll pat.reverse s.reverse).reverse

/-- The 7-character substring `"usage"` (quotes included) that the chunk scan
looks for. -/
def usagePat : List Char := "\"usage\"".data

/-- The SSE `data: ` prefix. -/
def dataPref : List Char := "data: ".data

/-- The trailing blank line of an SSE event. -/
def nnPat : List Char := "\n\n".data

/-- A usage triple as read out of a parsed chunk (`u64` values). -/
structure UsageTriple where
  prompt : Nat
  completion : Nat
  total : Nat
deriving DecidableEq, Repr

/-- The per-chunk scan of `handle_stream_response`: when the chunk text
contains `"usage"` (quotes included), strip the leading `data: ` prefix and
the trailing `\n\n` when present, then parse.  The `parse` oracle abstracts
`serde_json::from_str::<Value>` followed by reading
`usage.{prompt,completion,total}_tokens` as `u64` (`none` when parsing fails
or a field is missing — either way the previous latch is kept).  The
`as u32` casts wrap modulo `2^32`. -/
def processChunk (parse : List Char → Option UsageTriple) (latest : Option Usage)
    (text : List Char) : Option Usage :=
  if containsSub usagePat text then
    let json_text :=
      if dataPref.isPrefixOf text then trimEndAll nnPat (dropPrefAll dataPref text)
      else text
    match parse json_text with
    | some t => some ⟨t.prompt % W32, t.completion % W32, t.total % W32⟩
    | none => latest
  else latest

/-- One event of the upstream byte stream. -/
inductive ChunkEvent where
  | chunkOk (text : List Char)
  | chunkErr (msg : List Char)
deriving DecidableEq

/-- The `while let Some(chunk) = stream.next().await` loop: counts forwarded
chunks and latches the newest usage triple; a receive error yields an SSE
error line and returns from the generator (third component `true`). -/
def streamLoop (parse : List Char → Option UsageTriple) :
    List ChunkEvent → Nat → Option Usage → Nat × Option Usage × Bool
  | [], cnt, latest => (cnt, latest, false)
  | ChunkEvent.chunkOk t :: rest, cnt, latest =>
      streamLoop parse rest (cnt + 1) (processChunk parse latest t)
  | ChunkEvent.chunkErr _ :: _, cnt, latest => (cnt, latest, true)

/-- One `api_usage` row as the dispatcher inserts it (the generated uuid and
`request_time` are nondeterministic environment values and are omitted). -/
structure UsageRow where
  provider_api_key : String
  model : String
  prompt_tokens : Nat
  completion_tokens : Nat
  total_tokens : Nat
  status : String
  client_ip : String
  request_id : Option String
deriving DecidableEq, Repr

/-- The end-of-stream accounting block of `handle_stream_response`: a latched
triple gives `Pool.UpdateUsage(total)` plus one `Success` row carrying the
triple; otherwise one zero-token row, `PartialSuccess` when at least one
chunk was forwarded, `Error` when none. -/
def streamEndAccounting (apiKey model clientIp : String) (chunkCount : Nat)
    (latched : Option Usage) : List UsageRow × List (String × Nat) :=
  match latched with
  | some u =>
      ([⟨apiKey, model, u.prompt_tokens, u.completion_tokens, u.total_tokens, "Success",
         clientIp, none⟩],
       [(apiKey, u.total_tokens)])
  | none =>
      ([⟨apiKey, model, 0, 0, 0, if chunkCount > 0 then "PartialSuccess" else "Error",
         clientIp, none⟩],
       [])

/-- The streaming body after a successful 2xx upstream connect: run the chunk
loop; when a receive error aborted the generator, nothing more happens (no
row is written); otherwise do the end-of-stream accounting.  Returns the
usage rows inserted, the `Pool.UpdateUsage` calls made, and the number of
chunks forwarded. -/
def runStreamBody (parse : List Char → Option UsageTriple) (events : List ChunkEvent)
    (apiKey model clientIp : String) : List UsageRow × List (String × Nat) × Nat :=
  match streamLoop parse events 0 none with
  | (cnt, latched, errored) =>
      if errored then ([], [], cnt)
      else
        match streamEndAccounting apiKey model clientIp cnt latched with
        | (rows, upds) => (rows, upds, cnt)

theorem streamLoop_no_err (parse : List Char → Option UsageTriple) :
    ∀ (evs : List ChunkEvent) (cnt : Nat) (latest : Option Usage),
      (∀ e ∈ evs, ∃ t, e = ChunkEvent.chunkOk t) →
      (streamLoop parse evs cnt latest).2.2 = false := by
  intro evs
  induction evs with
  | nil =>
    intro cnt latest _
    rfl
  | cons e rest ih =>
    intro cnt latest hall
    obtain ⟨t, rfl⟩ := hall e (List.mem_cons_self e rest)
    exact ih (cnt + 1) _ (fun e2 he2 => hall e2 (List.mem_cons_of_mem _ he2))

theorem streamLoop_latch_none (parse : List Char → Option UsageTriple) :
    ∀ (evs : List ChunkEvent) (cnt : Nat),
      (∀ t, ChunkEvent.chunkOk t ∈ evs → containsSub usagePat t = false) →
      (streamLoop parse evs cnt none).2.1 = none := by
  intro evs
  induction evs with
  | nil =>
    intro cnt _
    rfl
  | cons e rest ih =>
    intro cnt hall
    rcases e with t | m
    · have hpc : processChunk parse none t = none := by
        unfold processChunk
        rw [if_neg]
        rw [hall t (List.mem_cons_self _ _)]
        exact Bool.false_ne_true
      show (streamLoop parse rest (cnt + 1) (processChunk parse none t)).2.1 = none
      rw [hpc]
      exact ih (cnt + 1) (fun t2 ht2 => hall t2 (List.mem_cons_of_mem _ ht2))
    · rfl

/-- C3 counterexample: a streaming dispatch reaches the upstream, forwards
one chunk, then hits a receive error; the stream ends but the handler
returns from the generator without writing any usage row (the claim demands
one `PartialSuccess` row here). -/
theorem c3_stream_counterexample :
    runStreamBody (fun _ => none)
      [ChunkEvent.chunkOk ("hello".data), ChunkEvent.chunkErr ("boom".data)]
      "A" "M" "ip"
      = ([], [], 1) := by
  decide

/-- C3 amended: for every streaming dispatch that reaches the upstream and
whose byte stream terminates without a receive error (a mid-stream receive
error instead emits an SSE error line and writes no row), exactly one usage
row is written at stream end: a latched triple — latched only from forwarded
chunks containing the substring `"usage"`, with the `data: ` prefix stripped
before JSON parsing — gives one `Success` row carrying the triple plus a
pool-tally update with `total_tokens`; otherwise one zero-token
`PartialSuccess` row when at least one chunk was forwarded, else one
zero-token `Error` row. -/
theorem c3_stream_accounting (parse : List Char → Option UsageTriple)
    (events : List ChunkEvent) (apiKey model clientIp : String)
    (hok : ∀ e ∈ events, ∃ t, e = ChunkEvent.chunkOk t) :
    (streamLoop parse events 0 none).2.2 = false ∧
    (runStreamBody parse events apiKey model clientIp).1.length = 1 ∧
    (∀ u, (streamLoop parse events 0 none).2.1 = some u →
      (runStreamBody parse events apiKey model clientIp).1
        = [⟨apiKey, model, u.prompt_tokens, u.completion_tokens, u.total_tokens,
            "Success", clientIp, none⟩] ∧
      (runStreamBody parse events apiKey model clientIp).2.1 = [(apiKey, u.total_tokens)]) ∧
    ((streamLoop parse events 0 none).2.1 = none →
      0 < (streamLoop parse events 0 none).1 →
      (runStreamBody parse events apiKey model clientIp).1
        = [⟨apiKey, model, 0, 0, 0, "PartialSuccess", clientIp, none⟩] ∧
      (runStreamBody parse events apiKey model clientIp).2.1 = []) ∧
    ((streamLoop parse events 0 none).2.1 = none →
      (streamLoop parse events 0 none).1 = 0 →
      (runStreamBody parse events apiKey model clientIp).1
        = [⟨apiKey, model, 0, 0, 0, "Error", clientIp, none⟩] ∧
      (runStreamBody parse events apiKey model clientIp).2.1 = []) ∧
    ((∀ t, ChunkEvent.chunkOk t ∈ events → containsSub usagePat t = false) →
      (streamLoop parse events 0 none).2.1 = none) := by
  rcases hsl : streamLoop parse events 0 none with ⟨cnt, latched, errored⟩
  have herr : errored = false := by
    have h2 := streamLoop_no_err parse events 0 none hok
    rw [hsl] at h2
    exact h2
  subst herr
  have hrun : runStreamBody parse events apiKey model clientIp
      = ((streamEndAccounting apiKey model clientIp cnt latched).1,
         (streamEndAccounting apiKey model clientIp cnt latched).2, cnt) := by
    unfold runStreamBody
    rw [hsl]
    dsimp only
    rcases streamEndAccounting apiKey model clientIp cnt latched with ⟨rows, upds⟩
    rfl
  refine ⟨rfl, ?_, ?_, ?_, ?_, ?_⟩
  · rw [hrun]
    rcases latched with _ | u <;> simp [streamEndAccounting]
  · intro u hu
    simp only at hu
    subst hu
    rw [hrun]
    simp [streamEndAccounting]
  · intro hnone hcnt
    simp only at hnone
    subst hnone
    rw [hrun]
    simp [streamEndAccounting, hcnt]
  · intro hnone hcnt
    simp only at hnone
    subst hnone
    have hc0 : cnt = 0 := hcnt
    rw [hrun]
    simp [streamEndAccounting, hc0]
  · intro hq
    have h2 := streamLoop_latch_none parse events 0 hq
    rw [hsl] at h2
    exact h2

/-- A chunk whose text contains the `"usage"` marker and parses to the
triple (10, 20, 30) under `parseW`. -/
def chunkW : List Char := ("\"usage\" x").data

/-- A concrete parse oracle for `chunkW`. -/
def parseW : List Char → Option UsageTriple :=
  fun t => if t = chunkW then some ⟨10, 20, 30⟩ else none

theorem c3_stream_accounting_witness :
    (∀ e ∈ [ChunkEvent.chunkOk chunkW], ∃ t, e = ChunkEvent.chunkOk t) ∧
    (streamLoop parseW [ChunkEvent.chunkOk chunkW] 0 none).2.1 = some ⟨10, 20, 30⟩ ∧
    (runStreamBody parseW [ChunkEvent.chunkOk chunkW] "A" "M" "ip").1
      = [⟨"A", "M", 10, 20, 30, "Success", "ip", none⟩] :=
  ⟨fun e he => ⟨chunkW, by rw [List.mem_singleton] at he; exact he⟩,
   by decide,
   ((c3_stream_accounting parseW [ChunkEvent.chunkOk chunkW] "A" "M" "ip"
      (fun e he => ⟨chunkW, by rw [List.mem_singleton] at he; exact he⟩)).2.2.1
      ⟨10, 20, 30⟩ (by decide)).1⟩
